import Mathlib

/-!
Verification of the layout/scaling engine of `gallery_xlsx_export.py`.

The script converts a directory of still-frame images into an XLSX gallery:
one row per image, the image in column A and a timecode in column B.  We give
a shallow embedding of its pure core (frame-code parsing, timecode
conversion, pixel/unit converters, resize strategies and the layout engine of
`main`) and prove the specified properties about it.

Python-specific arithmetic (`int()` truncation toward zero, `round()`
half-to-even banker rounding, `//` floor division on non-negative ints) is
modelled explicitly; floats are modelled as exact rationals.
-/

namespace GalleryXlsx

/-- Executable floor of a rational: `q.num / q.den` with Euclidean `Int`
division (the denominator is positive, so this is the mathematical floor;
see `ratFloor_eq_floor`). -/
def ratFloor (q : ℚ) : ℤ := q.num / (q.den : ℤ)

theorem ratFloor_eq_floor (q : ℚ) : ratFloor q = ⌊q⌋ := by
  rw [Rat.floor_def]; rfl

/-- Python `int()` applied to an exact rational value: truncation toward
zero (floor for non-negative arguments, ceiling for negative ones). -/
def pyInt (q : ℚ) : ℤ := if 0 ≤ q then ratFloor q else -ratFloor (-q)

theorem pyInt_of_nonneg {q : ℚ} (h : 0 ≤ q) : pyInt q = ⌊q⌋ := by
  rw [pyInt, if_pos h, ratFloor_eq_floor]

/-- Python 3 `round()` on an exact rational: round half to even. -/
def pyRound (q : ℚ) : ℤ :=
  let f := ratFloor q
  let r := q - f
  if r < 1/2 then f
  else if 1/2 < r then f + 1
  else if f % 2 = 0 then f else f + 1

/-! ## Unit converters (source lines 76–85)

```python
def pixels_to_col_width(pixels: int) -> float:
    return max(1.0, (pixels - 5) / 7.0)

def col_width_to_pixels(width: float) -> int:
    return int(7.0 * width + 5)

def pixels_to_row_points(pixels: int) -> float:
    return max(1.0, (3.0 / 4.0) * pixels)
```
-/

def pixels_to_col_width (pixels : ℤ) : ℚ := max 1 (((pixels : ℚ) - 5) / 7)

def col_width_to_pixels (width : ℚ) : ℤ := pyInt (7 * width + 5)

def pixels_to_row_points (pixels : ℤ) : ℚ := max 1 (3 / 4 * (pixels : ℚ))

/-- C3 counterexample input: `7 * (9/5) + 5 = 88/5 = 17.6`. -/
theorem col_width_to_pixels_nine_fifths : col_width_to_pixels (9/5 : ℚ) = 17 := by
  rw [col_width_to_pixels, pyInt_of_nonneg (by norm_num)]
  norm_num

/-- C3: the claim says `col_width_to_pixels` rounds `7·w + 5` to the nearest
integer; at `w = 9/5` the code truncates `17.6` to `17` while the nearest
integer is `18`. -/
theorem C3_cex_col_width_to_pixels_not_round :
    col_width_to_pixels (9/5 : ℚ) ≠ round ((7 : ℚ) * (9/5) + 5) := by
  have h1 : col_width_to_pixels (9/5 : ℚ) = 17 := col_width_to_pixels_nine_fifths
  have h2 : round ((7 : ℚ) * (9/5) + 5) = 18 := by norm_num [round_eq]
  rw [h1, h2]
  decide

/-- C3 (amended): for every non-negative width `w`, `col_width_to_pixels w`
is `7·w + 5` truncated toward zero, i.e. `⌊7·w + 5⌋`. -/
theorem C3_col_width_to_pixels_floor (w : ℚ) (h : 0 ≤ w) :
    col_width_to_pixels w = ⌊(7 : ℚ) * w + 5⌋ := by
  have h5 : (0 : ℚ) ≤ 7 * w + 5 := by linarith
  rw [col_width_to_pixels, pyInt_of_nonneg h5]

/-- C3 witness at `w = 9/5`. -/
theorem C3_col_width_to_pixels_floor_witness :
    (0 : ℚ) ≤ 9/5 ∧ col_width_to_pixels (9/5 : ℚ) = ⌊(7 : ℚ) * (9/5) + 5⌋ :=
  ⟨by norm_num, C3_col_width_to_pixels_floor (9/5) (by norm_num)⟩

/-- C4: the pixel round-trip `pixels_to_col_width (col_width_to_pixels x)`
differs from `x` by at most one width unit whenever `x ≥ 1`. -/
theorem C4_round_trip (x : ℚ) (hx : 1 ≤ x) :
    |pixels_to_col_width (col_width_to_pixels x) - x| ≤ 1 := by
  have h5 : (0 : ℚ) ≤ 7 * x + 5 := by linarith
  rw [col_width_to_pixels, pyInt_of_nonneg h5, pixels_to_col_width]
  set p : ℤ := ⌊(7 : ℚ) * x + 5⌋ with hp
  have hle : (p : ℚ) ≤ 7 * x + 5 := Int.floor_le _
  have hlt : 7 * x + 5 - 1 < (p : ℚ) := Int.sub_one_lt_floor _
  have hv1 : ((p : ℚ) - 5) / 7 ≤ x := by
    rw [div_le_iff₀ (by norm_num)]
    linarith
  have hv2 : x - 1/7 < ((p : ℚ) - 5) / 7 := by
    rw [lt_div_iff₀ (by norm_num)]
    linarith
  rcases le_total 1 (((p : ℚ) - 5) / 7) with hm | hm
  · rw [max_eq_right hm, abs_le]
    constructor <;> linarith
  · rw [max_eq_left hm, abs_le]
    constructor <;> linarith

/-- C4 witness at `x = 3`. -/
theorem C4_round_trip_witness :
    (1 : ℚ) ≤ 3 ∧ |pixels_to_col_width (col_width_to_pixels 3) - 3| ≤ 1 :=
  ⟨by norm_num, C4_round_trip 3 (by norm_num)⟩

/-! ## Frame-code parsing (source lines 51–64)

```python
def parse_frame_from_filename(name):
    m = re.match(r"^f(\d{8})\.(?:jpe?g|png)$", name, re.IGNORECASE)
    if m:
        return int(m.group(1))
    m = re.search(r"(\d{8})", name)
    if m:
        return int(m.group(1))
    return None
```

Case-insensitivity is modelled on ASCII letters (the only letters in the
pattern).  `int()` on an 8-digit group can never fail, so the `ValueError`
guards are dead and the embedding is a total function.
-/

def isDig (c : Char) : Bool := decide ('0' ≤ c) && decide (c ≤ '9')

def digitsToNat (cs : List Char) : ℕ :=
  cs.foldl (fun a c => 10 * a + (c.toNat - '0'.toNat)) 0

/-- Lower-cased extension accepted by the strict pattern: `.jpg`, `.jpeg`
or `.png`. -/
def strictExtOk (cs : List Char) : Bool :=
  cs.map Char.toLower = ['.', 'j', 'p', 'g'] ||
  cs.map Char.toLower = ['.', 'j', 'p', 'e', 'g'] ||
  cs.map Char.toLower = ['.', 'p', 'n', 'g']

/-- The strict pattern `^f(\d{8})\.(?:jpe?g|png)$` anchored at both ends of
the character list. -/
def strictCore : List Char → Option ℕ
  | [] => none
  | c :: rest =>
    if c.toLower = 'f' ∧ (rest.take 8).length = 8 ∧
        (∀ d ∈ rest.take 8, isDig d = true) ∧ strictExtOk (rest.drop 8) = true
    then some (digitsToNat (rest.take 8))
    else none

/-- Python's `$` (without `re.MULTILINE`) also matches just before a single
trailing newline, so the strict pattern additionally accepts `…png\n`. -/
def strictMatch (cs : List Char) : Option ℕ :=
  match strictCore cs with
  | some n => some n
  | none => if cs.getLast? = some '\x0a' then strictCore cs.dropLast else none

/-- `re.search(r"(\d{8})", name)`: the earliest position at which eight
consecutive digit characters occur (they may sit inside a longer digit
run). -/
def find8Run : List Char → Option ℕ
  | [] => none
  | c :: rest =>
    if ((c :: rest).take 8).length = 8 ∧ (∀ d ∈ (c :: rest).take 8, isDig d = true)
    then some (digitsToNat ((c :: rest).take 8))
    else find8Run rest

def parse_frame_from_filename (name : String) : Option ℕ :=
  match strictMatch name.data with
  | some n => some n
  | none => find8Run name.data

/-- Eight consecutive digits start at position `i` of `cs`. -/
def window8 (cs : List Char) (i : ℕ) : Prop :=
  ((cs.drop i).take 8).length = 8 ∧ ∀ c ∈ (cs.drop i).take 8, isDig c = true

theorem window8_cons_succ (c : Char) (rest : List Char) (i : ℕ) :
    window8 (c :: rest) (i + 1) ↔ window8 rest i := by
  simp [window8, List.drop_succ_cons]

theorem window8_nil (i : ℕ) : ¬ window8 ([] : List Char) i := by
  intro h
  rcases h with ⟨hlen, -⟩
  simp at hlen

/-- Characterization of the fallback scan: it returns `none` exactly when no
eight consecutive digits occur anywhere, and a returned value is the digit
window at the earliest matching position. -/
theorem find8Run_spec (cs : List Char) :
    (find8Run cs = none ↔ ∀ i, ¬ window8 cs i) ∧
    (∀ n, find8Run cs = some n →
      ∃ i, window8 cs i ∧ n = digitsToNat ((cs.drop i).take 8) ∧
        ∀ j, j < i → ¬ window8 cs j) := by
  induction cs with
  | nil =>
      constructor
      · simp only [find8Run, true_iff]
        exact fun i => window8_nil i
      · intro n h
        simp [find8Run] at h
  | cons c rest ih =>
      by_cases h0 : window8 (c :: rest) 0
      · have hcond : ((c :: rest).take 8).length = 8 ∧
            (∀ d ∈ (c :: rest).take 8, isDig d = true) := by
          simpa [window8] using h0
        constructor
        · rw [find8Run, if_pos hcond]
          constructor
          · intro h; simp at h
          · intro hall; exact absurd h0 (hall 0)
        · intro n hn
          rw [find8Run, if_pos hcond, Option.some_inj] at hn
          refine ⟨0, h0, ?_, ?_⟩
          · simpa [List.drop] using hn.symm
          · intro j hj; omega
      · have hcond : ¬ (((c :: rest).take 8).length = 8 ∧
            (∀ d ∈ (c :: rest).take 8, isDig d = true)) := by
          intro hc
          exact h0 (by simpa [window8] using hc)
        constructor
        · rw [find8Run, if_neg hcond, ih.1]
          constructor
          · intro hall i
            match i with
            | 0 => exact h0
            | j + 1 => exact fun hw => hall j ((window8_cons_succ c rest j).mp hw)
          · intro hall i hw
            exact hall (i + 1) ((window8_cons_succ c rest i).mpr hw)
        · intro n hn
          rw [find8Run, if_neg hcond] at hn
          obtain ⟨i, hw, hv, hmin⟩ := ih.2 n hn
          refine ⟨i + 1, (window8_cons_succ c rest i).mpr hw, ?_, ?_⟩
          · simpa [List.drop_succ_cons] using hv
          · intro j hj
            match j with
            | 0 => exact h0
            | k + 1 =>
                intro hw2
                exact hmin k (by omega) ((window8_cons_succ c rest k).mp hw2)

/-- The maximal digit-run lengths of a character list: lengths of the
non-empty blocks obtained by splitting at every non-digit character. -/
def maximalDigitRunLengths (cs : List Char) : List ℕ :=
  ((cs.splitOnP (fun c => !isDig c)).map List.length).filter (fun n => n ≠ 0)

/-- The claim's premise, following the spec's words: the filename contains a
run of exactly eight decimal digits (a maximal digit run of length eight). -/
def hasRunOfExactlyEightDigits (s : String) : Prop :=
  8 ∈ maximalDigitRunLengths s.data

/-- C5: the filename `123456789.jpg` has a *nine*-digit maximal run and so,
per the claim, the parser should return absent; the code instead returns the
first eight of those nine digits. -/
theorem C5_cex_nine_digit_run :
    parse_frame_from_filename "123456789.jpg" = some 12345678 ∧
    ¬ hasRunOfExactlyEightDigits "123456789.jpg" ∧
    strictMatch "123456789.jpg".data = none := by
  refine ⟨by decide, ?_, by decide⟩
  unfold hasRunOfExactlyEightDigits
  decide

/-- C5 (amended): the strict branch behaves as claimed, and the fallback
returns the digits at the *earliest position where eight consecutive digits
occur* — even inside a longer digit run — returning absent only when no
eight consecutive digits exist; it never raises an error (it is total). -/
theorem C5_parse_frame (name : String) :
    (∀ c (ds ext : List Char), name.data = c :: (ds ++ ext) → c.toLower = 'f' →
        ds.length = 8 → (∀ d ∈ ds, isDig d = true) → strictExtOk ext = true →
        parse_frame_from_filename name = some (digitsToNat ds)) ∧
    (strictMatch name.data = none →
      ((parse_frame_from_filename name = none ↔ ∀ i, ¬ window8 name.data i) ∧
       (∀ n, parse_frame_from_filename name = some n →
          ∃ i, window8 name.data i ∧ n = digitsToNat ((name.data.drop i).take 8) ∧
            ∀ j, j < i → ¬ window8 name.data j))) := by
  constructor
  · intro c ds ext hdecomp hf hlen hdig hext
    have htake : (ds ++ ext).take 8 = ds := by
      rw [← hlen]; exact List.take_left ds ext
    have hdrop : (ds ++ ext).drop 8 = ext := by
      rw [← hlen]; exact List.drop_left ds ext
    have hcore : strictCore name.data = some (digitsToNat ds) := by
      rw [hdecomp, strictCore]
      rw [if_pos ⟨hf, by rw [htake]; exact hlen, by rw [htake]; exact hdig,
        by rw [hdrop]; exact hext⟩]
      rw [htake]
    rw [parse_frame_from_filename, strictMatch, hcore]
  · intro hsm
    rw [parse_frame_from_filename, hsm]
    exact ⟨(find8Run_spec name.data).1, (find8Run_spec name.data).2⟩

/-- C5 witness: a strict-pattern filename, parsed as claimed. -/
theorem C5_parse_frame_witness :
    parse_frame_from_filename "f00001234.png" = some 1234 := by
  have h := (C5_parse_frame "f00001234.png").1 'f' "00001234".data ".png".data
    (by decide) (by decide) (by decide) (by decide) (by decide)
  rw [h]
  decide

/-! ## Timecode conversion (source lines 66–73 and 205–209)

```python
def seconds_to_hhmmss_floor(seconds: float) -> str:
    if not seconds or seconds < 0:
        return "00:00:00"
    s = int(math.floor(seconds))
    h = s // 3600
    m = (s % 3600) // 60
    r = s % 60
    return f"{h:02d}:{m:02d}:{r:02d}"
```

and in `main`:

```python
frame = parse_frame_from_filename(name)
tc = ""
if frame is not None and fps > 0.0:
    tc = seconds_to_hhmmss_floor(frame / fps)
```
-/

def pad2 (n : ℕ) : String := if n < 10 then "0" ++ toString n else toString n

/-- `HH:MM:SS` decomposition of a number of seconds: hours unbounded,
minutes and seconds zero-padded to two digits. -/
def hhmmssOfSecs (t : ℕ) : String :=
  pad2 (t / 3600) ++ ":" ++ pad2 ((t % 3600) / 60) ++ ":" ++ pad2 (t % 60)

/-- `if not seconds or seconds < 0` catches `0.0` and negatives; on the
remaining (strictly positive) branch the floor is non-negative, so the
Python ints `s`, `h`, `m`, `r` are modelled as `ℕ`. -/
def seconds_to_hhmmss_floor (seconds : ℚ) : String :=
  if seconds = 0 ∨ seconds < 0 then "00:00:00"
  else
    let s : ℕ := (ratFloor seconds).toNat
    pad2 (s / 3600) ++ ":" ++ pad2 ((s % 3600) / 60) ++ ":" ++ pad2 (s % 60)

/-- The timecode computation of `main`: empty unless a frame index is
present and `fps > 0`. -/
def timecode (frame : Option ℕ) (fps : ℚ) : String :=
  match frame with
  | none => ""
  | some f => if 0 < fps then seconds_to_hhmmss_floor ((f : ℚ) / fps) else ""

/-- Per-image timecode of `main` (lines 206–209). -/
def timecode_for (name : String) (fps : ℚ) : String :=
  timecode (parse_frame_from_filename name) fps

theorem seconds_to_hhmmss_floor_nonneg (q : ℚ) (hq : 0 ≤ q) :
    seconds_to_hhmmss_floor q = hhmmssOfSecs (⌊q⌋.toNat) := by
  rcases eq_or_lt_of_le hq with h0 | hpos
  · rw [← h0, seconds_to_hhmmss_floor, if_pos (Or.inl rfl)]
    have hf : ⌊(0 : ℚ)⌋ = 0 := Int.floor_zero
    rw [hf]
    decide
  · have hcond : ¬ ((q = 0) ∨ q < 0) := by
      push_neg
      exact ⟨hpos.ne.symm, hq⟩
    simp only [seconds_to_hhmmss_floor, hhmmssOfSecs, ratFloor_eq_floor, if_neg hcond]

/-- C6: the converter is empty on an absent frame or `fps ≤ 0`; otherwise it
is the zero-padded `HH:MM:SS` decomposition of `⌊frame / fps⌋`, with minutes
and seconds below 60 and hours unbounded (`100:00:00` is reachable); a
negative seconds value gives `"00:00:00"`; the spec's examples hold. -/
theorem C6_timecode (fr : Option ℕ) (fps : ℚ) :
    (fr = none → timecode fr fps = "") ∧
    (fps ≤ 0 → timecode fr fps = "") ∧
    (∀ n, fr = some n → 0 < fps →
      timecode fr fps = hhmmssOfSecs (⌊(n : ℚ) / fps⌋.toNat)) ∧
    (∀ t : ℕ, (t % 3600) / 60 ≤ 59 ∧ t % 60 ≤ 59) ∧
    (∀ q : ℚ, q < 0 → seconds_to_hhmmss_floor q = "00:00:00") ∧
    timecode (some 750) 25 = "00:00:30" ∧
    timecode (some 90000) 25 = "01:00:00" ∧
    timecode (some 9000000) 25 = "100:00:00" ∧
    timecode none 25 = "" ∧
    timecode (some 10) 0 = "" := by
  have hmain : ∀ (n : ℕ) (fp : ℚ), 0 < fp →
      timecode (some n) fp = hhmmssOfSecs (⌊(n : ℚ) / fp⌋.toNat) := by
    intro n fp hfp
    rw [timecode, if_pos hfp]
    exact seconds_to_hhmmss_floor_nonneg _ (div_nonneg (Nat.cast_nonneg n) hfp.le)
  have hex : ∀ (n k : ℕ), ((n : ℚ)) / 25 = (k : ℚ) →
      timecode (some n) 25 = hhmmssOfSecs k := by
    intro n k hq
    rw [hmain n 25 (by norm_num), hq, Int.floor_natCast]
    rfl
  refine ⟨?_, ?_, ?_, ?_, ?_, ?_, ?_, ?_, ?_, ?_⟩
  · intro h; rw [h]; rfl
  · intro h
    match fr with
    | none => rfl
    | some f => rw [timecode, if_neg (not_lt.mpr h)]
  · intro n hfr hfp; rw [hfr]; exact hmain n fps hfp
  · intro t; exact ⟨by omega, by omega⟩
  · intro q hq; rw [seconds_to_hhmmss_floor, if_pos (Or.inr hq)]
  · rw [hex 750 30 (by norm_num)]; decide
  · rw [hex 90000 3600 (by norm_num)]; decide
  · rw [hex 9000000 360000 (by norm_num)]; decide
  · rfl
  · rw [timecode, if_neg (by norm_num)]

/-- C6 witness at `frame = 750`, `fps = 25`. -/
theorem C6_timecode_witness :
    (some 750 = none → timecode (some 750) 25 = "") ∧
    timecode (some 750) 25 = "00:00:30" :=
  ⟨(C6_timecode (some 750) 25).1, (C6_timecode (some 750) 25).2.2.2.2.2.1⟩

/-! ## Directory listing, arguments and the resize strategies
(source lines 39–49, 87–108, 110–144) -/

/-- A source image file together with the behaviour of the image codec on
it: `size` is the decoded pixel dimensions (`none` when `Image.open` fails,
making `get_image_size` return `(None, None)`), `resizeOk` says whether
`physical_resize_image` completes (decode, resize, re-encode), and
`insertOk` whether `worksheet.insert_image` accepts the file. -/
structure SrcImage where
  name : String
  size : Option (ℕ × ℕ)
  resizeOk : Bool
  insertOk : Bool
deriving DecidableEq

/-- `str.lower()` (ASCII case folding, the only case the extensions use). -/
def pyLower (s : String) : String := ⟨s.data.map Char.toLower⟩

/-- `name.lower().endswith((".jpg", ".jpeg", ".png"))` from
`list_images_sorted` (lines 45–48). -/
def hasImageExt (name : String) : Bool :=
  let lower := (pyLower name).data
  ".jpg".data.isSuffixOf lower || ".jpeg".data.isSuffixOf lower ||
    ".png".data.isSuffixOf lower

/-- Code-point lexicographic order on character lists: the comparison
Python's `sorted` uses on `str`. -/
def charListLe : List Char → List Char → Bool
  | [], _ => true
  | _ :: _, [] => false
  | c :: cs, d :: ds =>
      if c.toNat < d.toNat then true
      else if d.toNat < c.toNat then false
      else charListLe cs ds

def nameLe (x y : SrcImage) : Bool := charListLe x.name.data y.name.data

/-- `list_images_sorted(images_dir)`: `sorted(os.listdir(...))` filtered to
the image extensions; a missing directory (`FileNotFoundError`) yields `[]`.
The directory is `none` when it does not exist. -/
def list_images_sorted (dir : Option (List SrcImage)) : List SrcImage :=
  match dir with
  | none => []
  | some files =>
      (files.mergeSort nameLe).filter (fun i => hasImageExt i.name)

/-- Parsed command-line arguments plus the two environment facts `main`
branches on (`PIL_AVAILABLE` and the scratch directory path).  `fps` and
`scale` model the float arguments as exact rationals; `float(args.fps or
0.0)` is the identity on them. -/
structure Args where
  fps : ℚ
  scale : ℚ
  resizePhysical : Bool
  pilAvailable : Bool
  center : String
  padX : ℤ
  padY : ℤ
  imagesDir : String
  tmpDir : String

/-- `scale = float(args.scale or 0.25)`: Python `or` replaces a zero scale
by the default `0.25`. -/
def effScale (a : Args) : ℚ := if a.scale = 0 then 0.25 else a.scale

/-- Python `str.strip()` whitespace (ASCII part). -/
def isPySpace (c : Char) : Bool :=
  c = ' ' || c = '\t' || c = '\x0a' || c = '\x0d' || c = '\x0b' || c = '\x0c'

def pyStrip (s : String) : String :=
  ⟨((s.data.dropWhile isPySpace).reverse.dropWhile isPySpace).reverse⟩

/-- `do_center = str(args.center).strip() not in ("0", "false", "False",
"no", "No")` (line 128). -/
def do_center_of (center : String) : Bool :=
  !(["0", "false", "False", "no", "No"].contains (pyStrip center))

/-- `use_physical = (args.resize == "physical" and PIL_AVAILABLE)`; when
Pillow is missing the run falls back to scale-only with a warning
(lines 139–142). -/
def usePhysicalOf (a : Args) : Bool := a.resizePhysical && a.pilAvailable

/-- Dimensions produced by `physical_resize_image` (lines 94–99):
`max(1, int(round(w * scale)))` by `max(1, int(round(h * scale)))`. -/
def resizedDims (sz : ℕ × ℕ) (scale : ℚ) : ℤ × ℤ :=
  (max 1 (pyRound ((sz.1 : ℚ) * scale)), max 1 (pyRound ((sz.2 : ℚ) * scale)))

/-- Outcome of `physical_resize_image(src, dst, scale)`: `none` models the
raised exception (undecodable source, or a failing resize/re-encode). -/
def physicalResizeResult (img : SrcImage) (scale : ℚ) : Option (ℤ × ℤ) :=
  match img.size with
  | none => none
  | some sz => if img.resizeOk then some (resizedDims sz scale) else none

/-- One entry of the `processed` list: `(path, w, h)`. -/
structure Record where
  path : String
  w : ℤ
  h : ℤ

/-- One iteration of the preprocessing loop (lines 149–162).  Physical mode
degrades per image to the original file and its original (or zero)
dimensions (`w or 0`, `h or 0`); scale-only mode records the scaled target
dimensions `int(round((w or 0) * scale))`. -/
def processOne (usePhysical : Bool) (scale : ℚ) (a : Args) (img : SrcImage) :
    Record :=
  if usePhysical then
    match physicalResizeResult img scale with
    | some nwh => { path := a.tmpDir ++ "/" ++ img.name, w := nwh.1, h := nwh.2 }
    | none =>
        match img.size with
        | some sz => { path := a.imagesDir ++ "/" ++ img.name, w := sz.1, h := sz.2 }
        | none => { path := a.imagesDir ++ "/" ++ img.name, w := 0, h := 0 }
  else
    match img.size with
    | some sz =>
        { path := a.imagesDir ++ "/" ++ img.name,
          w := pyRound ((sz.1 : ℚ) * scale), h := pyRound ((sz.2 : ℚ) * scale) }
    | none => { path := a.imagesDir ++ "/" ++ img.name, w := 0, h := 0 }

/-! ## Layout engine (source lines 164–248) -/

/-- Python `max(iterable, default=d)`. -/
def pyMaxD (l : List ℤ) (d : ℤ) : ℤ :=
  match l with
  | [] => d
  | x :: xs => xs.foldl max x

/-- `colA_pixels = max_w + 2 * args.pad_x` with
`max_w = max((w for _, w, _ in processed), default=0)` (lines 165, 177). -/
def colA_pixels_of (processed : List Record) (padX : ℤ) : ℤ :=
  pyMaxD (processed.map Record.w) 0 + 2 * padX

/-- Display dimensions used by the row loop (lines 190–203): physical mode
uses the processed record; scale-only re-reads the original size and
recomputes `int(round(o· * scale))` when both dimensions are positive. -/
def rowDims (usePhysical : Bool) (scale : ℚ) (img : SrcImage) (rec : Record) :
    ℤ × ℤ :=
  if usePhysical then (rec.w, rec.h)
  else
    match img.size with
    | some sz =>
        if 0 < sz.1 ∧ 0 < sz.2
        then (pyRound ((sz.1 : ℚ) * scale), pyRound ((sz.2 : ℚ) * scale))
        else (rec.w, rec.h)
    | none => (rec.w, rec.h)

/-- Content of column A for one row: the embedded image, or — when
`insert_image` raises — the original path written as text (lines 230–239). -/
inductive CellA where
  | image (path : String)
  | pathText (path : String)

/-- One written row: the column-A cell, the insertion offsets and visual
scale factors, the row height in points, the timecode text, and the display
dimensions the layout used. -/
structure RowOut where
  cellA : CellA
  xOffset : ℤ
  yOffset : ℤ
  xScale : ℚ
  yScale : ℚ
  heightPoints : ℚ
  tc : String
  w : ℤ
  h : ℤ

/-- One iteration of the writing loop (lines 188–244).  Offsets are
`max(0, int((span - inner) / 2))` when centering is requested and absent
(defaulting to 0) otherwise; physical mode inserts without scale factors
(defaulting to 1.0). -/
def makeRow (usePhysical : Bool) (a : Args) (colA_pixels : ℤ) (img : SrcImage)
    (rec : Record) : RowOut :=
  let wh := rowDims usePhysical (effScale a) img rec
  let w := wh.1
  let h := wh.2
  let row_pixels := h + 2 * a.padY
  let dc := do_center_of a.center
  { cellA := if img.insertOk then CellA.image rec.path
             else CellA.pathText (a.imagesDir ++ "/" ++ img.name),
    xOffset := if dc then max 0 (pyInt (((colA_pixels - w : ℤ) : ℚ) / 2)) else 0,
    yOffset := if dc then max 0 (pyInt (((row_pixels - h : ℤ) : ℚ) / 2)) else 0,
    xScale := if usePhysical then 1 else effScale a,
    yScale := if usePhysical then 1 else effScale a,
    heightPoints := pixels_to_row_points row_pixels,
    tc := timecode_for img.name a.fps,
    w := w, h := h }

/-- Result of a run: `fatal 2` is `sys.exit(2)` ("No images to export.")
before any output file exists; `ok` carries the column-A width (in width
units) and the written rows. -/
inductive ExportResult where
  | fatal (exitCode : ℕ)
  | ok (colA_width : ℚ) (rows : List RowOut)

/-- The layout-relevant behaviour of `main` (lines 110–248): list and
filter the directory, exit 2 when nothing qualifies, select the run-wide
strategy, preprocess every image, derive the shared column geometry once,
then emit one row per image in order. -/
def gallery_main (dir : Option (List SrcImage)) (a : Args) : ExportResult :=
  let imgs := list_images_sorted dir
  if imgs.isEmpty then ExportResult.fatal 2
  else
    let usePhysical := usePhysicalOf a
    let processed := imgs.map (processOne usePhysical (effScale a) a)
    let colA_pixels := colA_pixels_of processed a.padX
    ExportResult.ok (pixels_to_col_width colA_pixels)
      (List.zipWith (makeRow usePhysical a colA_pixels) imgs processed)

/-- The row `main` produces for one image, with the shared column width
`colPx` (loop body specialized to the run-wide strategy). -/
def rowFor (a : Args) (colPx : ℤ) (img : SrcImage) : RowOut :=
  makeRow (usePhysicalOf a) a colPx img
    (processOne (usePhysicalOf a) (effScale a) a img)

/-- The processed records of a run. -/
def processedOf (dir : Option (List SrcImage)) (a : Args) : List Record :=
  (list_images_sorted dir).map (processOne (usePhysicalOf a) (effScale a) a)

/-- The shared column pixel width of a run. -/
def colA_pixelsOf (dir : Option (List SrcImage)) (a : Args) : ℤ :=
  colA_pixels_of (processedOf dir a) a.padX

/-! ## Supporting lemmas about the layout pipeline -/

theorem zipWith_map_self {α β γ : Type} (g : α → β → γ) (f : α → β)
    (l : List α) :
    List.zipWith g l (l.map f) = l.map (fun x => g x (f x)) := by
  induction l with
  | nil => rfl
  | cons x xs ih => simp [ih]

/-- `main` on a non-empty listing: one row per image, all built from the one
shared column pixel width. -/
theorem gallery_main_eq (dir : Option (List SrcImage)) (a : Args)
    (h : (list_images_sorted dir).isEmpty = false) :
    gallery_main dir a =
      ExportResult.ok (pixels_to_col_width (colA_pixelsOf dir a))
        ((list_images_sorted dir).map (rowFor a (colA_pixelsOf dir a))) := by
  rw [gallery_main]
  simp only [h, Bool.false_eq_true, if_false]
  rw [zipWith_map_self]
  rfl

theorem foldl_max_bounds (xs : List ℤ) (acc : ℤ) :
    acc ≤ xs.foldl max acc ∧ ∀ x ∈ xs, x ≤ xs.foldl max acc := by
  induction xs generalizing acc with
  | nil => exact ⟨le_refl _, by intro x hx; cases hx⟩
  | cons y ys ih =>
      obtain ⟨h1, h2⟩ := ih (max acc y)
      refine ⟨le_trans (le_max_left acc y) h1, ?_⟩
      intro x hx
      rcases List.mem_cons.mp hx with rfl | hx2
      · exact le_trans (le_max_right acc x) h1
      · exact h2 x hx2

theorem le_pyMaxD {x : ℤ} {l : List ℤ} (hx : x ∈ l) (d : ℤ) :
    x ≤ pyMaxD l d := by
  cases l with
  | nil => cases hx
  | cons y ys =>
      rcases List.mem_cons.mp hx with rfl | hx2
      · exact (foldl_max_bounds ys x).1
      · exact (foldl_max_bounds ys y).2 x hx2

/-- Re-reading the image size in the scale-only row loop reproduces the
processed record's dimensions: the row loop and the preprocessing pass agree
on each image's display size. -/
theorem rowDims_processOne (usePhysical : Bool) (scale : ℚ) (a : Args)
    (img : SrcImage) :
    rowDims usePhysical scale img (processOne usePhysical scale a img) =
      ((processOne usePhysical scale a img).w,
        (processOne usePhysical scale a img).h) := by
  cases usePhysical with
  | true => rfl
  | false =>
      cases hsz : img.size with
      | none => simp [rowDims, processOne, hsz]
      | some sz =>
          by_cases hpos : 0 < sz.1 ∧ 0 < sz.2
          · simp [rowDims, processOne, hsz, hpos]
          · simp [rowDims, processOne, hsz, hpos]

/-- Clamped truncating halving equals clamped flooring halving: for a
non-negative difference the two agree, and for a negative difference both
sides clamp to zero. -/
theorem max_zero_pyInt_half (d : ℤ) :
    max 0 (pyInt ((d : ℚ) / 2)) = max 0 ⌊((d : ℚ)) / 2⌋ := by
  rcases le_or_lt 0 d with hd | hd
  · rw [pyInt_of_nonneg (div_nonneg (by exact_mod_cast hd) (by norm_num))]
  · have hq : ((d : ℚ)) / 2 < 0 :=
      div_neg_of_neg_of_pos (by exact_mod_cast hd) (by norm_num)
    rw [pyInt, if_neg (not_le.mpr hq)]
    have h1 : -ratFloor (-((d : ℚ) / 2)) ≤ 0 := by
      rw [ratFloor_eq_floor]
      have hn : (0 : ℚ) ≤ -((d : ℚ) / 2) := by linarith
      have := Int.floor_nonneg.mpr hn
      omega
    have h2 : ⌊(d : ℚ) / 2⌋ ≤ 0 := Int.floor_nonpos hq.le
    rw [max_eq_left h1, max_eq_left h2]

/-! ## Claims about the layout engine -/

/-- C10: centering is disabled exactly when the stripped `--center` value is
one of `"0"`, `"false"`, `"False"`, `"no"`, `"No"`; any other value — e.g.
`"FALSE"`, `"NO"`, `"off"` or the empty string — enables centering. -/
theorem C10_center_flag :
    (∀ s : String, do_center_of s = false ↔
      pyStrip s ∈ ["0", "false", "False", "no", "No"]) ∧
    do_center_of "FALSE" = true ∧ do_center_of "NO" = true ∧
    do_center_of "off" = true ∧ do_center_of "" = true ∧
    do_center_of "0" = false ∧ do_center_of " no " = false := by
  refine ⟨?_, by decide, by decide, by decide, by decide, by decide, by decide⟩
  intro s
  rw [do_center_of, Bool.not_eq_false']
  exact List.elem_iff

/-- C9: when no directory entry qualifies (or the directory does not exist),
`main` terminates with the distinct non-zero exit code 2 and produces no
output. -/
theorem C9_no_images_run_fatal (dir : Option (List SrcImage)) (a : Args)
    (h : dir = none ∨
      ∃ l, dir = some l ∧ ∀ img ∈ l, hasImageExt img.name = false) :
    gallery_main dir a = ExportResult.fatal 2 ∧
    ∀ cw rows, gallery_main dir a ≠ ExportResult.ok cw rows := by
  have hempty : list_images_sorted dir = [] := by
    rcases h with rfl | ⟨l, rfl, hall⟩
    · rfl
    · rw [list_images_sorted, List.filter_eq_nil_iff]
      intro img hmem
      have hl : img ∈ l := (List.mergeSort_perm l nameLe).mem_iff.mp hmem
      rw [hall img hl]
      exact Bool.false_ne_true
  have hfatal : gallery_main dir a = ExportResult.fatal 2 := by
    rw [gallery_main, hempty]
    rfl
  refine ⟨hfatal, ?_⟩
  intro cw rows hok
  rw [hfatal] at hok
  exact ExportResult.noConfusion hok

/-- C9 witness: a directory holding a single non-image file. -/
theorem C9_no_images_run_fatal_witness :
    (∀ img ∈ [SrcImage.mk "readme.txt" none false false],
      hasImageExt img.name = false) ∧
    gallery_main (some [SrcImage.mk "readme.txt" none false false])
        (Args.mk 25 (1/4) true true "1" 0 0 "imgs" "tmp") =
      ExportResult.fatal 2 :=
  ⟨by decide,
    (C9_no_images_run_fatal (some [SrcImage.mk "readme.txt" none false false])
      (Args.mk 25 (1/4) true true "1" 0 0 "imgs" "tmp")
      (Or.inr ⟨_, rfl, by decide⟩)).1⟩

/-- On an already-sorted directory the listing is just the extension
filter. -/
theorem list_images_sorted_of_sorted (l : List SrcImage)
    (h : List.Pairwise (fun x y => nameLe x y = true) l) :
    list_images_sorted (some l) = l.filter (fun i => hasImageExt i.name) := by
  rw [list_images_sorted, List.mergeSort_of_sorted h]

/-- C1: on a non-empty listing the run succeeds; the shared column pixel
width is `max(displayWidth) + 2·padX` over the processed records, it
dominates every record's width, the sheet has one row per image, and every
row's centering offset is computed against that same shared value. -/
theorem C1_column_geometry (dir : Option (List SrcImage)) (a : Args)
    (h : (list_images_sorted dir).isEmpty = false) :
    gallery_main dir a =
      ExportResult.ok (pixels_to_col_width (colA_pixelsOf dir a))
        ((list_images_sorted dir).map (rowFor a (colA_pixelsOf dir a))) ∧
    colA_pixelsOf dir a =
      pyMaxD ((processedOf dir a).map Record.w) 0 + 2 * a.padX ∧
    (∀ rec ∈ processedOf dir a,
      rec.w ≤ pyMaxD ((processedOf dir a).map Record.w) 0) ∧
    ((list_images_sorted dir).map (rowFor a (colA_pixelsOf dir a))).length =
      (list_images_sorted dir).length ∧
    (∀ img ∈ list_images_sorted dir,
      (rowFor a (colA_pixelsOf dir a) img).xOffset =
        (if do_center_of a.center
          then max 0 (pyInt (((colA_pixelsOf dir a
              - (rowFor a (colA_pixelsOf dir a) img).w : ℤ) : ℚ) / 2))
          else 0)) := by
  refine ⟨gallery_main_eq dir a h, rfl, ?_, List.length_map _ _, ?_⟩
  · intro rec hrec
    exact le_pyMaxD (List.mem_map_of_mem Record.w hrec) 0
  · intro img _
    rfl

/-- C1 witness: a one-image directory. -/
theorem C1_column_geometry_witness :
    (list_images_sorted
        (some [SrcImage.mk "f00000001.jpg" (some (400, 300)) true true])).isEmpty
      = false ∧
    ∀ rec ∈ processedOf
        (some [SrcImage.mk "f00000001.jpg" (some (400, 300)) true true])
        (Args.mk 25 (1/4) true true "1" 0 0 "imgs" "tmp"),
      rec.w ≤ pyMaxD ((processedOf
          (some [SrcImage.mk "f00000001.jpg" (some (400, 300)) true true])
          (Args.mk 25 (1/4) true true "1" 0 0 "imgs" "tmp")).map Record.w) 0 := by
  have hempty : (list_images_sorted
      (some [SrcImage.mk "f00000001.jpg" (some (400, 300)) true true])).isEmpty
      = false := by
    rw [list_images_sorted_of_sorted _ (by decide)]
    decide
  exact ⟨hempty,
    (C1_column_geometry
      (some [SrcImage.mk "f00000001.jpg" (some (400, 300)) true true])
      (Args.mk 25 (1/4) true true "1" 0 0 "imgs" "tmp") hempty).2.2.1⟩

/-- C2: when centering is requested the offsets are the clamped floored
half-differences `max(0, ⌊(span − inner)/2⌋)`; when it is not requested both
offsets are zero; the x-offset is never negative, and an image exactly as
wide as the column gets x-offset zero. -/
theorem C2_centering_offsets (usePhysical : Bool) (a : Args) (colPx : ℤ)
    (img : SrcImage) (rec : Record) (r : RowOut)
    (hr : r = makeRow usePhysical a colPx img rec) :
    (do_center_of a.center = true →
      r.xOffset = max 0 ⌊((colPx - r.w : ℤ) : ℚ) / 2⌋ ∧
      r.yOffset = max 0 ⌊((r.h + 2 * a.padY - r.h : ℤ) : ℚ) / 2⌋) ∧
    (do_center_of a.center = false → r.xOffset = 0 ∧ r.yOffset = 0) ∧
    0 ≤ r.xOffset ∧
    (r.w = colPx → r.xOffset = 0) := by
  subst hr
  refine ⟨?_, ?_, ?_, ?_⟩
  · intro hdc
    simp only [makeRow, hdc, if_true]
    exact ⟨max_zero_pyInt_half _, max_zero_pyInt_half _⟩
  · intro hdc
    simp only [makeRow, hdc, Bool.false_eq_true, if_false]
    exact ⟨trivial, trivial⟩
  · simp only [makeRow]
    by_cases hdc : do_center_of a.center
    · simp only [hdc, if_true]
      exact le_max_left 0 _
    · simp only [hdc, Bool.false_eq_true, if_false]
      exact le_refl 0
  · intro hw
    simp only [makeRow] at hw ⊢
    by_cases hdc : do_center_of a.center
    · simp only [hdc, if_true, hw, sub_self]
      rw [show (((0 : ℤ) : ℚ)) / 2 = 0 by norm_num,
        pyInt_of_nonneg (le_refl 0), Int.floor_zero]
      rfl
    · simp only [hdc, Bool.false_eq_true, if_false]

/-- C2 witness: a centered 100-pixel-wide record in a 100-pixel column. -/
theorem C2_centering_offsets_witness :
    0 ≤ (makeRow true (Args.mk 25 (1/4) true true "1" 0 0 "imgs" "tmp") 100
        (SrcImage.mk "f00000001.jpg" (some (400, 300)) true true)
        (Record.mk "tmp/f00000001.jpg" 100 75)).xOffset ∧
    ((makeRow true (Args.mk 25 (1/4) true true "1" 0 0 "imgs" "tmp") 100
        (SrcImage.mk "f00000001.jpg" (some (400, 300)) true true)
        (Record.mk "tmp/f00000001.jpg" 100 75)).w = 100 →
      (makeRow true (Args.mk 25 (1/4) true true "1" 0 0 "imgs" "tmp") 100
        (SrcImage.mk "f00000001.jpg" (some (400, 300)) true true)
        (Record.mk "tmp/f00000001.jpg" 100 75)).xOffset = 0) :=
  ⟨(C2_centering_offsets true (Args.mk 25 (1/4) true true "1" 0 0 "imgs" "tmp")
      100 (SrcImage.mk "f00000001.jpg" (some (400, 300)) true true)
      (Record.mk "tmp/f00000001.jpg" 100 75) _ rfl).2.2.1,
    (C2_centering_offsets true (Args.mk 25 (1/4) true true "1" 0 0 "imgs" "tmp")
      100 (SrcImage.mk "f00000001.jpg" (some (400, 300)) true true)
      (Record.mk "tmp/f00000001.jpg" 100 75) _ rfl).2.2.2⟩

/-- `w or 0` from the physical-mode fallback (line 158–159). -/
def widthOr0 (img : SrcImage) : ℤ :=
  match img.size with
  | some sz => sz.1
  | none => 0

/-- `h or 0` from the physical-mode fallback (line 158–159). -/
def heightOr0 (img : SrcImage) : ℤ :=
  match img.size with
  | some sz => sz.2
  | none => 0

/-- C7: in physical mode the run emits one row per listed image; an image on
which `physical_resize_image` fails degrades — alone — to the original file
with its original (undecoded-defaulting-to-zero) dimensions, while every
image that resizes successfully gets the resized copy and its new
dimensions. -/
theorem C7_physical_per_image_fallback (dir : Option (List SrcImage))
    (a : Args) (hup : usePhysicalOf a = true)
    (h : (list_images_sorted dir).isEmpty = false) :
    gallery_main dir a =
      ExportResult.ok (pixels_to_col_width (colA_pixelsOf dir a))
        ((list_images_sorted dir).map (rowFor a (colA_pixelsOf dir a))) ∧
    ((list_images_sorted dir).map (rowFor a (colA_pixelsOf dir a))).length =
      (list_images_sorted dir).length ∧
    ∀ img ∈ list_images_sorted dir,
      (physicalResizeResult img (effScale a) = none →
        (rowFor a (colA_pixelsOf dir a) img).w = widthOr0 img ∧
        (rowFor a (colA_pixelsOf dir a) img).h = heightOr0 img ∧
        (img.insertOk = true →
          (rowFor a (colA_pixelsOf dir a) img).cellA =
            CellA.image (a.imagesDir ++ "/" ++ img.name))) ∧
      (∀ nw nh, physicalResizeResult img (effScale a) = some (nw, nh) →
        (rowFor a (colA_pixelsOf dir a) img).w = nw ∧
        (rowFor a (colA_pixelsOf dir a) img).h = nh ∧
        (img.insertOk = true →
          (rowFor a (colA_pixelsOf dir a) img).cellA =
            CellA.image (a.tmpDir ++ "/" ++ img.name))) := by
  refine ⟨gallery_main_eq dir a h, List.length_map _ _, ?_⟩
  intro img _
  constructor
  · intro hnone
    have hrec : processOne (usePhysicalOf a) (effScale a) a img =
        Record.mk (a.imagesDir ++ "/" ++ img.name) (widthOr0 img)
          (heightOr0 img) := by
      rw [hup, processOne]
      simp only [if_true]
      rw [hnone]
      cases hsz : img.size with
      | none => simp [widthOr0, heightOr0, hsz]
      | some sz => simp [widthOr0, heightOr0, hsz]
    have hrow : rowFor a (colA_pixelsOf dir a) img =
        makeRow true a (colA_pixelsOf dir a) img
          (Record.mk (a.imagesDir ++ "/" ++ img.name) (widthOr0 img)
            (heightOr0 img)) := by
      rw [rowFor, hrec, hup]
    refine ⟨?_, ?_, ?_⟩
    · simp [hrow, makeRow, rowDims]
    · simp [hrow, makeRow, rowDims]
    · intro hins
      simp [hrow, makeRow, rowDims, hins]
  · intro nw nh hsome
    have hrec : processOne (usePhysicalOf a) (effScale a) a img =
        Record.mk (a.tmpDir ++ "/" ++ img.name) nw nh := by
      rw [hup, processOne]
      simp only [if_true]
      rw [hsome]
    have hrow : rowFor a (colA_pixelsOf dir a) img =
        makeRow true a (colA_pixelsOf dir a) img
          (Record.mk (a.tmpDir ++ "/" ++ img.name) nw nh) := by
      rw [rowFor, hrec, hup]
    refine ⟨?_, ?_, ?_⟩
    · simp [hrow, makeRow, rowDims]
    · simp [hrow, makeRow, rowDims]
    · intro hins
      simp [hrow, makeRow, rowDims, hins]

/-- C7 witness: three images, the middle one undecodable; the run still
emits three rows. -/
theorem C7_physical_per_image_fallback_witness :
    usePhysicalOf (Args.mk 25 (1/4) true true "1" 0 0 "imgs" "tmp") = true ∧
    (list_images_sorted (some
        [SrcImage.mk "f00000001.jpg" (some (400, 300)) true true,
         SrcImage.mk "f00000002.jpg" none false true,
         SrcImage.mk "f00000003.jpg" (some (200, 100)) true true])).isEmpty
      = false ∧
    (list_images_sorted (some
        [SrcImage.mk "f00000001.jpg" (some (400, 300)) true true,
         SrcImage.mk "f00000002.jpg" none false true,
         SrcImage.mk "f00000003.jpg" (some (200, 100)) true true])).length = 3 ∧
    ((list_images_sorted (some
        [SrcImage.mk "f00000001.jpg" (some (400, 300)) true true,
         SrcImage.mk "f00000002.jpg" none false true,
         SrcImage.mk "f00000003.jpg" (some (200, 100)) true true])).map
      (rowFor (Args.mk 25 (1/4) true true "1" 0 0 "imgs" "tmp")
        (colA_pixelsOf (some
          [SrcImage.mk "f00000001.jpg" (some (400, 300)) true true,
           SrcImage.mk "f00000002.jpg" none false true,
           SrcImage.mk "f00000003.jpg" (some (200, 100)) true true])
          (Args.mk 25 (1/4) true true "1" 0 0 "imgs" "tmp")))).length =
      (list_images_sorted (some
        [SrcImage.mk "f00000001.jpg" (some (400, 300)) true true,
         SrcImage.mk "f00000002.jpg" none false true,
         SrcImage.mk "f00000003.jpg" (some (200, 100)) true true])).length := by
  have hl : list_images_sorted (some
      [SrcImage.mk "f00000001.jpg" (some (400, 300)) true true,
       SrcImage.mk "f00000002.jpg" none false true,
       SrcImage.mk "f00000003.jpg" (some (200, 100)) true true]) =
      [SrcImage.mk "f00000001.jpg" (some (400, 300)) true true,
       SrcImage.mk "f00000002.jpg" none false true,
       SrcImage.mk "f00000003.jpg" (some (200, 100)) true true] := by
    rw [list_images_sorted_of_sorted _ (by decide)]
    decide
  refine ⟨rfl, by rw [hl]; decide, by rw [hl]; decide, ?_⟩
  exact (C7_physical_per_image_fallback (some
      [SrcImage.mk "f00000001.jpg" (some (400, 300)) true true,
       SrcImage.mk "f00000002.jpg" none false true,
       SrcImage.mk "f00000003.jpg" (some (200, 100)) true true])
    (Args.mk 25 (1/4) true true "1" 0 0 "imgs" "tmp") rfl
    (by rw [hl]; decide)).2.1

/-- C8: in scale-only mode, for a readable image the row height comes from
the scaled target height `int(round(oh * scale)) + 2·padY` converted to
points, while the inserted asset is the original file with visual scale
factors `x_scale = y_scale = scale`. -/
theorem C8_scale_only_geometry (a : Args) (colPx : ℤ) (img : SrcImage)
    (hup : usePhysicalOf a = false) (ow oh : ℕ) (hsz : img.size = some (ow, oh))
    (how : 0 < ow) (hoh : 0 < oh) :
    (rowFor a colPx img).h = pyRound ((oh : ℚ) * effScale a) ∧
    (rowFor a colPx img).heightPoints =
      pixels_to_row_points (pyRound ((oh : ℚ) * effScale a) + 2 * a.padY) ∧
    (rowFor a colPx img).xScale = effScale a ∧
    (rowFor a colPx img).yScale = effScale a ∧
    (img.insertOk = true →
      (rowFor a colPx img).cellA =
        CellA.image (a.imagesDir ++ "/" ++ img.name)) := by
  have hrec : processOne false (effScale a) a img =
      Record.mk (a.imagesDir ++ "/" ++ img.name)
        (pyRound ((ow : ℚ) * effScale a)) (pyRound ((oh : ℚ) * effScale a)) := by
    simp [processOne, hsz]
  have hrow : rowFor a colPx img =
      makeRow false a colPx img
        (Record.mk (a.imagesDir ++ "/" ++ img.name)
          (pyRound ((ow : ℚ) * effScale a))
          (pyRound ((oh : ℚ) * effScale a))) := by
    rw [rowFor, hup, hrec]
  have hdims : rowDims false (effScale a) img
      (Record.mk (a.imagesDir ++ "/" ++ img.name)
        (pyRound ((ow : ℚ) * effScale a)) (pyRound ((oh : ℚ) * effScale a))) =
      (pyRound ((ow : ℚ) * effScale a), pyRound ((oh : ℚ) * effScale a)) := by
    simp [rowDims, hsz, how, hoh]
  refine ⟨?_, ?_, ?_, ?_, ?_⟩
  · simp [hrow, makeRow, hdims]
  · simp [hrow, makeRow, hdims]
  · simp [hrow, makeRow]
  · simp [hrow, makeRow]
  · intro hins
    simp [hrow, makeRow, hins]

/-- C8 witness: a readable 400×300 image in a scale-only run. -/
theorem C8_scale_only_geometry_witness :
    usePhysicalOf (Args.mk 25 (1/4) false true "1" 0 0 "imgs" "tmp") = false ∧
    (0 : ℕ) < 400 ∧ (0 : ℕ) < 300 ∧
    (rowFor (Args.mk 25 (1/4) false true "1" 0 0 "imgs" "tmp") 105
        (SrcImage.mk "f00000001.jpg" (some (400, 300)) true true)).heightPoints =
      pixels_to_row_points (pyRound ((300 : ℚ) *
        effScale (Args.mk 25 (1/4) false true "1" 0 0 "imgs" "tmp")) + 2 * 0) :=
  ⟨rfl, by decide, by decide,
    (C8_scale_only_geometry (Args.mk 25 (1/4) false true "1" 0 0 "imgs" "tmp")
      105 (SrcImage.mk "f00000001.jpg" (some (400, 300)) true true) rfl
      400 300 rfl (by decide) (by decide)).2.1⟩

end GalleryXlsx
